import Mathlib

/-!
Verification of the CSV validation-and-aggregation pipeline of
`data_health_analyzer.py` (routines `parse_csv_rows`, `validate_rows`,
`compute_summary_statistics`, `generate_openai_summary`,
`analyze_csv_content`).

Embedding conventions:
- A Python `dict` row produced by `csv.DictReader` is represented as an
  association list `Record`; lookup takes the last binding for a key, since
  later `dict` assignments overwrite earlier ones, and absent keys read as
  the empty string (the code reads fields with `row.get(col) or ""`).
- The input handed to the row parser is the stream of token rows produced
  by the `csv` reader: one `List String` of cells per physical line, a
  blank line yielding `[]`.  `csv.DictReader` takes the first row as the
  header (`fieldnames is None` exactly when there is no row at all) and
  skips `[]` rows while iterating data rows.
- Python `float` results are represented by exact rationals `ℚ`; the
  divisions and the half-to-even rounding of `round(x, 2)` are modelled
  exactly.
- Python `str.strip` is modelled on ASCII whitespace, and `int(...)`
  parsing as an optional sign followed by digits with single interior
  underscores allowed, matching CPython on all ASCII inputs.
- The mutable loop state of `validate_rows` is a `ValidationState`; the
  Python `set` `seen_user_ids` is modelled by the list of its elements in
  insertion order (membership is the only operation performed on it), and
  the two `defaultdict`s by association lists with keys in insertion
  order, which is exactly the information a Python dict preserves.
-/

/-! ### Python string and integer primitives -/

/-- ASCII whitespace as recognised by Python `str.strip()`. -/
def isPySpace (c : Char) : Bool :=
  c = ' ' || c = '\t' || c = '\n' || c = '\x0d' || c = '\x0b' || c = '\x0c'

def pyStripChars (cs : List Char) : List Char :=
  ((cs.dropWhile isPySpace).reverse.dropWhile isPySpace).reverse

/-- Python `s.strip()`. -/
def pyStrip (s : String) : String := String.mk (pyStripChars s.data)

def digitVal (c : Char) : Nat := c.toNat - 48

/-- A valid body of a Python integer literal after an optional sign:
nonempty, made of ASCII digits and single interior underscores. -/
def isValidIntBody (cs : List Char) : Bool :=
  !cs.isEmpty &&
  cs.all (fun c => c.isDigit || c == '_') &&
  (match cs.head? with | some c => c.isDigit | none => false) &&
  (match cs.getLast? with | some c => c.isDigit | none => false) &&
  (cs.zip cs.tail).all (fun p => !(p.1 == '_' && p.2 == '_'))

def digitsToNat (cs : List Char) : Nat :=
  (cs.filter Char.isDigit).foldl (fun a c => a * 10 + digitVal c) 0

/-- Python `int(s)` on an already-stripped string: `some` value on success,
`none` when CPython would raise `ValueError`. -/
def parsePyInt (s : String) : Option Int :=
  match s.data with
  | '-' :: rest => if isValidIntBody rest then some (-(digitsToNat rest : Int)) else none
  | '+' :: rest => if isValidIntBody rest then some ((digitsToNat rest : Int)) else none
  | cs => if isValidIntBody cs then some ((digitsToNat cs : Int)) else none

/-! ### Records -/

/-- A row dictionary: keys in insertion order, later bindings shadowing
earlier ones (Python dict semantics). -/
abbrev Record := List (String × String)

/-- `row.get(c) or ""`: the last value bound to `c`, the empty string when
`c` is absent or bound to a falsy value (`None` is modelled by `""`,
which the `or ""` coalescing makes equivalent here). -/
def dictGet (r : Record) (c : String) : String :=
  match (r.filter (fun p => p.1 == c)).getLast? with
  | some p => p.2
  | none => ""

/-- The dictionary `csv.DictReader` builds for one data row:
`dict(zip(fieldnames, row))`, then every fieldname beyond the row length
is assigned the rest-value `None` (read back as `""`). -/
def mkRecord (fieldnames row : List String) : Record :=
  fieldnames.zip row ++ (fieldnames.drop row.length).map (fun c => (c, ""))

/-! ### Module constants -/

def EXPECTED_COLUMNS : List String := ["user_id", "sessions", "clicks", "errors"]

def NUMERIC_COLUMNS : List String := ["sessions", "clicks", "errors"]

/-! ### `parse_csv_rows` -/

/-- `[col for col in EXPECTED_COLUMNS if col not in reader.fieldnames]`. -/
def missingColumnsOf (fieldnames : List String) : List String :=
  EXPECTED_COLUMNS.filter (fun c => !fieldnames.contains c)

def missingHeaderMsg : String := "The input file is missing a header row."

def missingColumnsMsg (missing : List String) : String :=
  "Missing required columns: " ++ String.intercalate ", " missing ++ "."

def emptyDatasetMsg : String := "The input file is empty. Please upload a valid dataset."

/-- `parse_csv_rows`: the input is the list of token rows of the CSV text
(header first); data rows that are `[]` (blank lines) are skipped by
`csv.DictReader` iteration. -/
def parse_csv_rows (csvRows : List (List String)) : Except String (List Record) :=
  match csvRows with
  | [] => .error missingHeaderMsg
  | fieldnames :: dataRows =>
    let missing_columns := missingColumnsOf fieldnames
    if !missing_columns.isEmpty then
      .error (missingColumnsMsg missing_columns)
    else
      let rows := (dataRows.filter (fun r => !r.isEmpty)).map (mkRecord fieldnames)
      if rows.isEmpty then .error emptyDatasetMsg
      else .ok rows

/-! ### Warning strings of `validate_rows` -/

def rowWarning (n : Nat) (body : String) : String :=
  "Row " ++ toString n ++ ": " ++ body

def dupBody (u : String) : String := "duplicate user_id " ++ u ++ " detected."

def missingBody (column : String) : String := "missing value in " ++ column ++ " column."

def invalidBody (raw column : String) : String :=
  "invalid integer value \x27" ++ raw ++ "\x27 in " ++ column ++ " column."

def negBody (column : String) : String := "negative value in " ++ column ++ " column."

/-! ### `validate_rows` -/

structure ValidationState where
  warnings : List String
  seen_user_ids : List String
  sessions_per_user : List (String × List Int)
  errors_flag_by_user : List (String × Bool)
  unique_user_ids : List String
  deriving DecidableEq

def initialState : ValidationState := ⟨[], [], [], [], []⟩

/-- `sessions_per_user[user_id].append(v)` on the `defaultdict(list)`. -/
def updSessions : List (String × List Int) → String → Int → List (String × List Int)
  | [], u, v => [(u, [v])]
  | (k, vs) :: rest, u, v =>
    if k = u then (k, vs ++ [v]) :: rest
    else (k, vs) :: updSessions rest u v

/-- `errors_flag_by_user[user_id] = True` on the `defaultdict(bool)`. -/
def updErrors : List (String × Bool) → String → List (String × Bool)
  | [], u => [(u, true)]
  | (k, b) :: rest, u =>
    if k = u then (k, true) :: rest
    else (k, b) :: updErrors rest u

/-- Body of the `for column in NUMERIC_COLUMNS` loop of `validate_rows`. -/
def processNumericColumn (n : Nat) (row : Record) (user_id : String)
    (st : ValidationState) (column : String) : ValidationState :=
  let raw_value := pyStrip (dictGet row column)
  if raw_value = "" then
    { st with warnings := st.warnings ++ [rowWarning n (missingBody column)] }
  else
    match parsePyInt raw_value with
    | none =>
      { st with warnings := st.warnings ++ [rowWarning n (invalidBody raw_value column)] }
    | some numeric_value =>
      if numeric_value < 0 then
        { st with warnings := st.warnings ++ [rowWarning n (negBody column)] }
      else
        let st1 :=
          if column = "sessions" ∧ user_id ≠ "" then
            { st with sessions_per_user := updSessions st.sessions_per_user user_id numeric_value }
          else st
        if column = "errors" ∧ user_id ≠ "" ∧ numeric_value > 0 then
          { st1 with errors_flag_by_user := updErrors st1.errors_flag_by_user user_id }
        else st1

/-- The user-identifier check at the top of the record loop of
`validate_rows`. -/
def userStep (n : Nat) (row : Record) (st : ValidationState) : ValidationState :=
  let user_id := pyStrip (dictGet row "user_id")
  if user_id ≠ "" then
    if user_id ∉ st.seen_user_ids then
      { st with
        unique_user_ids := st.unique_user_ids ++ [user_id],
        seen_user_ids := st.seen_user_ids ++ [user_id] }
    else
      { st with warnings := st.warnings ++ [rowWarning n (dupBody user_id)] }
  else
    { st with warnings := st.warnings ++ [rowWarning n (missingBody "user_id")] }

/-- Body of the `for row_number, row in enumerate(rows, start=2)` loop:
the user-identifier check, then the numeric columns in order. -/
def processRow (n : Nat) (row : Record) (st : ValidationState) : ValidationState :=
  let user_id := pyStrip (dictGet row "user_id")
  NUMERIC_COLUMNS.foldl (processNumericColumn n row user_id) (userStep n row st)

def validateLoop : Nat → List Record → ValidationState → ValidationState
  | _, [], st => st
  | n, row :: rest, st => validateLoop (n + 1) rest (processRow n row st)

/-- `validate_rows`: row numbering starts at 2 (the header is row 1). -/
def validate_rows (rows : List Record) : ValidationState :=
  validateLoop 2 rows initialState

/-! ### `compute_summary_statistics` -/

structure SummaryStatistics where
  total_users : Nat
  average_sessions_per_user : ℚ
  percent_users_with_errors : ℚ
  deriving DecidableEq

/-- Python `round(x)` to an integer: round half to even. -/
def pyRoundInt (q : ℚ) : ℤ :=
  let f := q.floor
  let r := q - f
  if r < 1 / 2 then f
  else if r > 1 / 2 then f + 1
  else if f % 2 = 0 then f else f + 1

/-- Python `round(x, 2)`. -/
def pyRound2 (q : ℚ) : ℚ := (pyRoundInt (q * 100) : ℚ) / 100

/-- `compute_summary_statistics`.  The two dict arguments are association
lists with pairwise-distinct keys (as every Python dict has); the dict
comprehension and the set comprehension of the source become `filter`/`map`
over them. -/
def compute_summary_statistics (unique_user_ids : List String)
    (sessions_per_user : List (String × List Int))
    (errors_flag_by_user : List (String × Bool)) : SummaryStatistics :=
  let unique_user_count := unique_user_ids.length
  let aggregated_sessions : List (String × Int) :=
    (sessions_per_user.filter (fun p => !p.2.isEmpty)).map (fun p => (p.1, p.2.sum))
  let avg_sessions : ℚ :=
    if !aggregated_sessions.isEmpty then
      ((aggregated_sessions.map (fun p => p.2)).sum : ℚ) / (aggregated_sessions.length : ℚ)
    else 0
  let users_with_errors : List String :=
    (errors_flag_by_user.filter (fun p => p.2)).map (fun p => p.1)
  let error_percentage : ℚ :=
    if unique_user_count ≠ 0 then
      ((users_with_errors.length : ℚ) / (unique_user_count : ℚ)) * 100
    else 0
  { total_users := unique_user_count,
    average_sessions_per_user := pyRound2 avg_sessions,
    percent_users_with_errors := pyRound2 error_percentage }

/-! ### `generate_openai_summary` and `analyze_csv_content` -/

/-- Outcome of the environment-dependent part of `generate_openai_summary`:
credential lookup, client import, the network call, and the shape of the
response.  `choiceMessage c` is a response with at least one choice whose
message `content` attribute is `c` (`none` for a missing/`None` content). -/
inductive OpenAIOutcome where
  | noApiKey
  | noClientLib
  | apiCallFailed (msg : String)
  | noChoices
  | choiceMessage (content : Option String)
  deriving DecidableEq

/-- `generate_openai_summary`, returning `(ai_summary, ai_notice)`. -/
def generate_openai_summary (outcome : OpenAIOutcome) : Option String × Option String :=
  match outcome with
  | .noApiKey =>
    (none, some "OpenAI analysis skipped: OPENAI_API_KEY environment variable is not set.")
  | .noClientLib =>
    (none, some "OpenAI analysis skipped: install the \x27openai\x27 package to enable this feature.")
  | .apiCallFailed msg => (none, some ("OpenAI API call failed: " ++ msg))
  | .noChoices => (none, some "OpenAI API returned no completion choices.")
  | .choiceMessage content =>
    match content with
    | none => (none, some "OpenAI API completion contained no message content.")
    | some c =>
      if c = "" then (none, some "OpenAI API completion contained no message content.")
      else (some (pyStrip c), none)

structure AnalysisResponse where
  warnings : List String
  statistics : SummaryStatistics
  ai_summary : Option String
  ai_notice : Option String
  deriving DecidableEq

/-- `analyze_csv_content`: the full pipeline.  A `ValueError` raised by the
parser is the `.error` case; the OpenAI-facing environment is passed in as
an `OpenAIOutcome`. -/
def analyze_csv_content (csvRows : List (List String)) (outcome : OpenAIOutcome) :
    Except String AnalysisResponse :=
  match parse_csv_rows csvRows with
  | .error e => .error e
  | .ok rows =>
    let v := validate_rows rows
    let stats := compute_summary_statistics v.unique_user_ids v.sessions_per_user
      v.errors_flag_by_user
    let p := generate_openai_summary outcome
    .ok { warnings := v.warnings, statistics := stats,
          ai_summary := p.1, ai_notice := p.2 }

/-! ### Derived views used to state properties -/

/-- The trimmed user identifier of a record. -/
def trimmedId (row : Record) : String := pyStrip (dictGet row "user_id")

/-- The accepted non-negative integer value of a numeric field, if the
field is present, parses, and is non-negative. -/
def columnValue (row : Record) (column : String) : Option Int :=
  let raw := pyStrip (dictGet row column)
  if raw = "" then none
  else
    match parsePyInt raw with
    | none => none
    | some v => if v < 0 then none else some v

/-- The sessions observations one record contributes. -/
def sessionsContribution (row : Record) : List Int :=
  match columnValue row "sessions" with
  | some v => [v]
  | none => []

/-- Whether one record sets the error flag of its user. -/
def errorsContribution (row : Record) : Bool :=
  match columnValue row "errors" with
  | some v => decide (0 < v)
  | none => false

/-- The identifiers one record adds to the registry, given the identifiers
already seen. -/
def newIds (row : Record) (seen : List String) : List String :=
  let u := trimmedId row
  if u = "" then [] else if u ∈ seen then [] else [u]

/-- The identifiers a list of records adds to the registry, given the
identifiers already seen. -/
def registryAdditions (seen : List String) : List Record → List String
  | [] => []
  | row :: rest => newIds row seen ++ registryAdditions (seen ++ newIds row seen) rest

/-- The warnings the user-identifier check of one record emits. -/
def userWarnings (n : Nat) (row : Record) (seen : List String) : List String :=
  let u := trimmedId row
  if u = "" then [rowWarning n (missingBody "user_id")]
  else if u ∈ seen then [rowWarning n (dupBody u)]
  else []

/-- The warnings one numeric field of one record emits. -/
def numericWarnings (n : Nat) (row : Record) (column : String) : List String :=
  let raw := pyStrip (dictGet row column)
  if raw = "" then [rowWarning n (missingBody column)]
  else
    match parsePyInt raw with
    | none => [rowWarning n (invalidBody raw column)]
    | some v => if v < 0 then [rowWarning n (negBody column)] else []

/-- All warnings one record emits: the user-identifier check first, then
the numeric fields in the fixed order sessions, clicks, errors. -/
def recordWarnings (n : Nat) (row : Record) (seen : List String) : List String :=
  userWarnings n row seen ++ numericWarnings n row "sessions" ++
    numericWarnings n row "clicks" ++ numericWarnings n row "errors"

/-- The per-record warning chunks of a list of records, starting at row
number `n` with `seen` identifiers already registered. -/
def warningChunks (n : Nat) (seen : List String) : List Record → List (List String)
  | [] => []
  | row :: rest =>
    recordWarnings n row seen :: warningChunks (n + 1) (seen ++ newIds row seen) rest

/-- Value of a key in an association list whose values are lists. -/
def getSessions (m : List (String × List Int)) (u : String) : List Int :=
  match m with
  | [] => []
  | (k, vs) :: rest => if k = u then vs else getSessions rest u

/-- Value of a key in an association list of flags, `false` when absent. -/
def getErrFlag (m : List (String × Bool)) (u : String) : Bool :=
  match m with
  | [] => false
  | (k, b) :: rest => if k = u then b else getErrFlag rest u

/-- The structural well-formedness invariant of the validation state: the
seen-set has no repeats and the two accumulator maps have pairwise-distinct
keys, all of which are registered identifiers. -/
def StateInv (st : ValidationState) : Prop :=
  st.seen_user_ids.Nodup ∧
  (st.sessions_per_user.map Prod.fst).Nodup ∧
  (st.errors_flag_by_user.map Prod.fst).Nodup ∧
  (∀ x ∈ st.sessions_per_user.map Prod.fst, x ∈ st.seen_user_ids) ∧
  (∀ x ∈ st.errors_flag_by_user.map Prod.fst, x ∈ st.seen_user_ids)

/-- Two records agree on every column that can influence the statistics:
everything except `clicks`. -/
def statsRelevantEq (r₁ r₂ : Record) : Prop :=
  dictGet r₁ "user_id" = dictGet r₂ "user_id" ∧
  dictGet r₁ "sessions" = dictGet r₂ "sessions" ∧
  dictGet r₁ "errors" = dictGet r₂ "errors"

/-! ### Step lemmas for `processNumericColumn` -/

theorem pnc_warnings (n : Nat) (row : Record) (u : String) (st : ValidationState) (c : String) :
    (processNumericColumn n row u st c).warnings = st.warnings ++ numericWarnings n row c := by
  unfold processNumericColumn numericWarnings
  by_cases h1 : pyStrip (dictGet row c) = ""
  · simp [h1]
  · cases h2 : parsePyInt (pyStrip (dictGet row c)) with
    | none => simp [h1, h2]
    | some v =>
      by_cases h3 : v < 0
      · simp [h1, h2, h3]
      · simp only [h1, h2, h3, if_false, if_neg, ite_false]
        split_ifs <;> simp [h1, h3]

theorem pnc_seen (n : Nat) (row : Record) (u : String) (st : ValidationState) (c : String) :
    (processNumericColumn n row u st c).seen_user_ids = st.seen_user_ids := by
  unfold processNumericColumn
  by_cases h1 : pyStrip (dictGet row c) = ""
  · simp [h1]
  · cases h2 : parsePyInt (pyStrip (dictGet row c)) with
    | none => simp [h1, h2]
    | some v =>
      by_cases h3 : v < 0
      · simp [h1, h2, h3]
      · simp only [h1, h2, h3, ite_false]
        split_ifs <;> simp

theorem pnc_unique (n : Nat) (row : Record) (u : String) (st : ValidationState) (c : String) :
    (processNumericColumn n row u st c).unique_user_ids = st.unique_user_ids := by
  unfold processNumericColumn
  by_cases h1 : pyStrip (dictGet row c) = ""
  · simp [h1]
  · cases h2 : parsePyInt (pyStrip (dictGet row c)) with
    | none => simp [h1, h2]
    | some v =>
      by_cases h3 : v < 0
      · simp [h1, h2, h3]
      · simp only [h1, h2, h3, ite_false]
        split_ifs <;> simp

theorem pnc_sessions (n : Nat) (row : Record) (u : String) (st : ValidationState) (c : String) :
    (processNumericColumn n row u st c).sessions_per_user =
      match columnValue row c with
      | some v =>
        if c = "sessions" ∧ u ≠ "" then updSessions st.sessions_per_user u v
        else st.sessions_per_user
      | none => st.sessions_per_user := by
  unfold processNumericColumn columnValue
  by_cases h1 : pyStrip (dictGet row c) = ""
  · simp [h1]
  · cases h2 : parsePyInt (pyStrip (dictGet row c)) with
    | none => simp [h1, h2]
    | some v =>
      by_cases h3 : v < 0
      · simp [h1, h2, h3]
      · simp only [h1, h2, h3, ite_false, if_neg, if_false]
        split_ifs <;> simp

theorem pnc_errors (n : Nat) (row : Record) (u : String) (st : ValidationState) (c : String) :
    (processNumericColumn n row u st c).errors_flag_by_user =
      match columnValue row c with
      | some v =>
        if c = "errors" ∧ u ≠ "" ∧ 0 < v then updErrors st.errors_flag_by_user u
        else st.errors_flag_by_user
      | none => st.errors_flag_by_user := by
  unfold processNumericColumn columnValue
  by_cases h1 : pyStrip (dictGet row c) = ""
  · simp [h1]
  · cases h2 : parsePyInt (pyStrip (dictGet row c)) with
    | none => simp [h1, h2]
    | some v =>
      by_cases h3 : v < 0
      · simp [h1, h2, h3]
      · simp only [h1, h2, h3, ite_false, if_neg, if_false]
        split_ifs <;> simp_all

/-! ### Step lemmas for `userStep` and `processRow` -/

theorem userStep_warnings (n : Nat) (row : Record) (st : ValidationState) :
    (userStep n row st).warnings = st.warnings ++ userWarnings n row st.seen_user_ids := by
  simp only [userStep, userWarnings, trimmedId]
  split_ifs with h1 h2 <;> simp_all

theorem userStep_seen (n : Nat) (row : Record) (st : ValidationState) :
    (userStep n row st).seen_user_ids = st.seen_user_ids ++ newIds row st.seen_user_ids := by
  simp only [userStep, newIds, trimmedId]
  split_ifs with h1 h2 <;> simp_all

theorem userStep_unique (n : Nat) (row : Record) (st : ValidationState) :
    (userStep n row st).unique_user_ids = st.unique_user_ids ++ newIds row st.seen_user_ids := by
  simp only [userStep, newIds, trimmedId]
  split_ifs with h1 h2 <;> simp_all

theorem userStep_sessions (n : Nat) (row : Record) (st : ValidationState) :
    (userStep n row st).sessions_per_user = st.sessions_per_user := by
  simp only [userStep]
  split_ifs <;> rfl

theorem userStep_errors (n : Nat) (row : Record) (st : ValidationState) :
    (userStep n row st).errors_flag_by_user = st.errors_flag_by_user := by
  simp only [userStep]
  split_ifs <;> rfl

theorem processRow_warnings (n : Nat) (row : Record) (st : ValidationState) :
    (processRow n row st).warnings = st.warnings ++ recordWarnings n row st.seen_user_ids := by
  unfold processRow recordWarnings
  simp only [NUMERIC_COLUMNS, List.foldl, pnc_warnings, userStep_warnings, List.append_assoc]

theorem processRow_seen (n : Nat) (row : Record) (st : ValidationState) :
    (processRow n row st).seen_user_ids = st.seen_user_ids ++ newIds row st.seen_user_ids := by
  unfold processRow
  simp only [NUMERIC_COLUMNS, List.foldl, pnc_seen, userStep_seen]

theorem processRow_unique (n : Nat) (row : Record) (st : ValidationState) :
    (processRow n row st).unique_user_ids = st.unique_user_ids ++ newIds row st.seen_user_ids := by
  unfold processRow
  simp only [NUMERIC_COLUMNS, List.foldl, pnc_unique, userStep_unique]

theorem processRow_sessions (n : Nat) (row : Record) (st : ValidationState) :
    (processRow n row st).sessions_per_user =
      match columnValue row "sessions" with
      | some v =>
        if trimmedId row ≠ "" then updSessions st.sessions_per_user (trimmedId row) v
        else st.sessions_per_user
      | none => st.sessions_per_user := by
  unfold processRow trimmedId
  simp only [NUMERIC_COLUMNS, List.foldl, pnc_sessions, userStep_sessions]
  cases hs : columnValue row "sessions" with
  | none =>
    cases hc : columnValue row "clicks" <;> cases he : columnValue row "errors" <;> simp
  | some v =>
    cases hc : columnValue row "clicks" <;> cases he : columnValue row "errors" <;> simp

theorem processRow_errors (n : Nat) (row : Record) (st : ValidationState) :
    (processRow n row st).errors_flag_by_user =
      match columnValue row "errors" with
      | some v =>
        if trimmedId row ≠ "" ∧ 0 < v then updErrors st.errors_flag_by_user (trimmedId row)
        else st.errors_flag_by_user
      | none => st.errors_flag_by_user := by
  unfold processRow trimmedId
  simp only [NUMERIC_COLUMNS, List.foldl, pnc_errors, userStep_errors]
  cases hs : columnValue row "sessions" with
  | none =>
    cases hc : columnValue row "clicks" <;> cases he : columnValue row "errors" <;> simp
  | some v =>
    cases hc : columnValue row "clicks" <;> cases he : columnValue row "errors" <;> simp

/-! ### Lookup lemmas for the two accumulator maps -/

theorem getSessions_updSessions (m : List (String × List Int)) (u w : String) (v : Int) :
    getSessions (updSessions m w v) u =
      if w = u then getSessions m u ++ [v] else getSessions m u := by
  induction m with
  | nil => by_cases h : w = u <;> simp [updSessions, getSessions, h]
  | cons p rest ih =>
    obtain ⟨k, vs⟩ := p
    by_cases hk : k = w
    · by_cases h : w = u <;> simp [updSessions, getSessions, hk, h]
    · by_cases hku : k = u
      · have h1 : ¬w = u := fun he => hk (hku.trans he.symm)
        have h2 : ¬u = w := fun he => h1 he.symm
        simp [updSessions, getSessions, hk, hku, h1, h2]
      · simp [updSessions, getSessions, hk, hku, ih]

theorem getErrFlag_updErrors (m : List (String × Bool)) (u w : String) :
    getErrFlag (updErrors m w) u = if w = u then true else getErrFlag m u := by
  induction m with
  | nil => by_cases h : w = u <;> simp [updErrors, getErrFlag, h]
  | cons p rest ih =>
    obtain ⟨k, b⟩ := p
    by_cases hk : k = w
    · by_cases h : w = u <;> simp [updErrors, getErrFlag, hk, h]
    · by_cases hku : k = u
      · have h1 : ¬w = u := fun he => hk (hku.trans he.symm)
        have h2 : ¬u = w := fun he => h1 he.symm
        simp [updErrors, getErrFlag, hk, hku, h1, h2]
      · simp [updErrors, getErrFlag, hk, hku, ih]

theorem processRow_getSessions (n : Nat) (row : Record) (st : ValidationState)
    (u : String) (hu : u ≠ "") :
    getSessions (processRow n row st).sessions_per_user u =
      getSessions st.sessions_per_user u ++
        (if trimmedId row = u then sessionsContribution row else []) := by
  rw [processRow_sessions]
  unfold sessionsContribution
  cases hs : columnValue row "sessions" with
  | none => by_cases ht : trimmedId row = u <;> simp [ht]
  | some v =>
    by_cases ht : trimmedId row = u
    · subst ht
      simp [hu, getSessions_updSessions]
    · by_cases ht2 : trimmedId row = ""
      · have h2 : ¬("" = u) := fun he => hu he.symm
        simp [ht, ht2, h2]
      · simp [ht, ht2, getSessions_updSessions]

theorem processRow_getErrFlag (n : Nat) (row : Record) (st : ValidationState)
    (u : String) (hu : u ≠ "") :
    getErrFlag (processRow n row st).errors_flag_by_user u =
      (getErrFlag st.errors_flag_by_user u ||
        (decide (trimmedId row = u) && errorsContribution row)) := by
  rw [processRow_errors]
  unfold errorsContribution
  cases he : columnValue row "errors" with
  | none => by_cases ht : trimmedId row = u <;> simp [ht]
  | some v =>
    by_cases ht : trimmedId row = u
    · subst ht
      by_cases hv : 0 < v
      · simp [hu, hv, getErrFlag_updErrors]
      · simp [hu, hv]
    · by_cases ht2 : trimmedId row = ""
      · have h2 : ¬("" = u) := fun he => hu he.symm
        simp [ht, ht2, h2]
      · by_cases hv : 0 < v
        · simp [ht, ht2, hv, getErrFlag_updErrors]
        · simp [ht, ht2, hv]

/-! ### Loop-level characterisations of `validate_rows` -/

theorem validateLoop_warnings (rows : List Record) : ∀ (n : Nat) (st : ValidationState),
    (validateLoop n rows st).warnings =
      st.warnings ++ (warningChunks n st.seen_user_ids rows).flatten := by
  induction rows with
  | nil => intro n st; simp [validateLoop, warningChunks]
  | cons row rest ih =>
    intro n st
    show (validateLoop (n + 1) rest (processRow n row st)).warnings = _
    rw [ih, processRow_warnings, processRow_seen]
    simp [warningChunks, List.append_assoc]

theorem validateLoop_seen (rows : List Record) : ∀ (n : Nat) (st : ValidationState),
    (validateLoop n rows st).seen_user_ids =
      st.seen_user_ids ++ registryAdditions st.seen_user_ids rows := by
  induction rows with
  | nil => intro n st; simp [validateLoop, registryAdditions]
  | cons row rest ih =>
    intro n st
    show (validateLoop (n + 1) rest (processRow n row st)).seen_user_ids = _
    rw [ih, processRow_seen]
    simp [registryAdditions, List.append_assoc]

theorem validateLoop_unique (rows : List Record) : ∀ (n : Nat) (st : ValidationState),
    (validateLoop n rows st).unique_user_ids =
      st.unique_user_ids ++ registryAdditions st.seen_user_ids rows := by
  induction rows with
  | nil => intro n st; simp [validateLoop, registryAdditions]
  | cons row rest ih =>
    intro n st
    show (validateLoop (n + 1) rest (processRow n row st)).unique_user_ids = _
    rw [ih, processRow_unique, processRow_seen]
    simp [registryAdditions, List.append_assoc]

theorem validateLoop_getSessions (rows : List Record) (u : String) (hu : u ≠ "") :
    ∀ (n : Nat) (st : ValidationState),
    getSessions (validateLoop n rows st).sessions_per_user u =
      getSessions st.sessions_per_user u ++
        (rows.map (fun r => if trimmedId r = u then sessionsContribution r else [])).flatten := by
  induction rows with
  | nil => intro n st; simp [validateLoop]
  | cons row rest ih =>
    intro n st
    show getSessions (validateLoop (n + 1) rest (processRow n row st)).sessions_per_user u = _
    rw [ih, processRow_getSessions n row st u hu]
    simp [List.append_assoc]

theorem validateLoop_getErrFlag (rows : List Record) (u : String) (hu : u ≠ "") :
    ∀ (n : Nat) (st : ValidationState),
    getErrFlag (validateLoop n rows st).errors_flag_by_user u =
      (getErrFlag st.errors_flag_by_user u ||
        rows.any (fun r => decide (trimmedId r = u) && errorsContribution r)) := by
  induction rows with
  | nil => intro n st; simp [validateLoop]
  | cons row rest ih =>
    intro n st
    show getErrFlag (validateLoop (n + 1) rest (processRow n row st)).errors_flag_by_user u = _
    rw [ih, processRow_getErrFlag n row st u hu]
    simp [Bool.or_assoc]

/-! ### Properties of `newIds` and `registryAdditions` -/

theorem mem_newIds (row : Record) (seen : List String) (x : String) :
    x ∈ newIds row seen ↔ (x = trimmedId row ∧ x ≠ "" ∧ x ∉ seen) := by
  simp only [newIds]
  split_ifs with h1 h2
  · constructor
    · intro h; simp at h
    · rintro ⟨rfl, h3, _⟩; exact absurd h1 h3
  · constructor
    · intro h; simp at h
    · rintro ⟨rfl, _, h3⟩; exact absurd h2 h3
  · constructor
    · intro h
      rcases List.mem_singleton.mp h with rfl
      exact ⟨rfl, h1, h2⟩
    · rintro ⟨rfl, _, _⟩; simp

theorem nodup_newIds (row : Record) (seen : List String) : (newIds row seen).Nodup := by
  simp only [newIds]
  split_ifs <;> simp

theorem mem_registryAdditions (rows : List Record) (u : String) : ∀ seen,
    (u ∈ registryAdditions seen rows ↔
      (u ≠ "" ∧ u ∉ seen ∧ u ∈ rows.map trimmedId)) := by
  induction rows with
  | nil => intro seen; simp [registryAdditions]
  | cons row rest ih =>
    intro seen
    simp only [registryAdditions]
    constructor
    · intro h
      rcases List.mem_append.mp h with h | h
      · obtain ⟨rfl, hne, hns⟩ := (mem_newIds _ _ _).mp h
        exact ⟨hne, hns, by simp⟩
      · obtain ⟨hne, hns, hmem⟩ := (ih _).mp h
        have hns' : u ∉ seen := fun hs => hns (List.mem_append.mpr (Or.inl hs))
        refine ⟨hne, hns', ?_⟩
        simp only [List.map_cons, List.mem_cons]
        exact Or.inr hmem
    · rintro ⟨hne, hns, hmem⟩
      simp only [List.map_cons, List.mem_cons] at hmem
      rcases hmem with h | h
      · exact List.mem_append.mpr (Or.inl ((mem_newIds _ _ _).mpr ⟨h, hne, hns⟩))
      · by_cases hd : u ∈ newIds row seen
        · exact List.mem_append.mpr (Or.inl hd)
        · refine List.mem_append.mpr (Or.inr ((ih _).mpr ⟨hne, ?_, h⟩))
          intro hx
          exact (List.mem_append.mp hx).elim hns hd

theorem registryAdditions_nodup (rows : List Record) : ∀ seen,
    (registryAdditions seen rows).Nodup := by
  induction rows with
  | nil => intro seen; simp [registryAdditions]
  | cons row rest ih =>
    intro seen
    simp only [registryAdditions]
    rw [List.nodup_append]
    refine ⟨nodup_newIds row seen, ih _, ?_⟩
    intro x hx hx2
    have := (mem_registryAdditions rest x _).mp hx2
    exact this.2.1 (List.mem_append.mpr (Or.inr hx))

/-! ### Indexing the warning chunks -/

theorem warningChunks_length (rows : List Record) : ∀ n seen,
    (warningChunks n seen rows).length = rows.length := by
  induction rows with
  | nil => intro n seen; simp [warningChunks]
  | cons row rest ih => intro n seen; simp [warningChunks, ih]

theorem warningChunks_get (rows : List Record) : ∀ n seen (i : Nat) (h : i < rows.length),
    (warningChunks n seen rows).get ⟨i, by rw [warningChunks_length]; exact h⟩ =
      recordWarnings (n + i) (rows.get ⟨i, h⟩)
        (seen ++ registryAdditions seen (rows.take i)) := by
  induction rows with
  | nil => intro n seen i h; simp at h
  | cons row rest ih =>
    intro n seen i h
    cases i with
    | zero => simp [warningChunks, registryAdditions]
    | succ j =>
      have hj : j < rest.length := Nat.lt_of_succ_lt_succ h
      have := ih (n + 1) (seen ++ newIds row seen) j hj
      simp only [warningChunks, List.get_cons_succ, List.take_succ_cons, registryAdditions]
      rw [this]
      congr 1
      · omega
      · simp [List.append_assoc]

/-! ### Distinctness of the warning strings -/

theorem head?_append_left {α : Type} (l₁ l₂ : List α) (c : α) (h : l₁.head? = some c) :
    (l₁ ++ l₂).head? = some c := by
  cases l₁ <;> simp_all

theorem dupBody_head (u : String) : (dupBody u).data.head? = some 'd' := by
  simp only [dupBody, String.data_append, List.append_assoc]
  exact head?_append_left _ _ _ rfl

theorem missingBody_head (c : String) : (missingBody c).data.head? = some 'm' := by
  simp only [missingBody, String.data_append, List.append_assoc]
  exact head?_append_left _ _ _ rfl

theorem invalidBody_head (raw c : String) : (invalidBody raw c).data.head? = some 'i' := by
  simp only [invalidBody, String.data_append, List.append_assoc]
  exact head?_append_left _ _ _ rfl

theorem negBody_head (c : String) : (negBody c).data.head? = some 'n' := by
  simp only [negBody, String.data_append, List.append_assoc]
  exact head?_append_left _ _ _ rfl

theorem ne_of_data_head_ne {s t : String} {c d : Char} (hs : s.data.head? = some c)
    (ht : t.data.head? = some d) (hcd : c ≠ d) : s ≠ t := by
  intro h
  subst h
  rw [hs] at ht
  exact hcd (Option.some.inj ht)

theorem dupBody_ne_missingBody (u c : String) : dupBody u ≠ missingBody c :=
  ne_of_data_head_ne (dupBody_head u) (missingBody_head c) (by decide)

theorem dupBody_ne_invalidBody (u raw c : String) : dupBody u ≠ invalidBody raw c :=
  ne_of_data_head_ne (dupBody_head u) (invalidBody_head raw c) (by decide)

theorem dupBody_ne_negBody (u c : String) : dupBody u ≠ negBody c :=
  ne_of_data_head_ne (dupBody_head u) (negBody_head c) (by decide)

theorem negBody_ne_invalidBody (c raw c2 : String) : negBody c ≠ invalidBody raw c2 :=
  ne_of_data_head_ne (negBody_head c) (invalidBody_head raw c2) (by decide)

theorem rowWarning_body_inj {n : Nat} {b₁ b₂ : String} (h : rowWarning n b₁ = rowWarning n b₂) :
    b₁ = b₂ := by
  unfold rowWarning at h
  have hd := congrArg String.data h
  simp only [String.data_append, List.append_assoc] at hd
  exact String.ext
    (List.append_cancel_left (List.append_cancel_left (List.append_cancel_left hd)))

theorem dupBody_inj {u v : String} (h : dupBody u = dupBody v) : u = v := by
  unfold dupBody at h
  have hd := congrArg String.data h
  simp only [String.data_append, List.append_assoc] at hd
  have := List.append_cancel_left hd
  exact String.ext (List.append_cancel_right this)

/-! ### Keys of the accumulator maps, and the state invariant -/

theorem processRow_sessions_none (n : Nat) (row : Record) (st : ValidationState)
    (hs : columnValue row "sessions" = none) :
    (processRow n row st).sessions_per_user = st.sessions_per_user := by
  rw [processRow_sessions, hs]

theorem processRow_sessions_some (n : Nat) (row : Record) (st : ValidationState) (v : Int)
    (hs : columnValue row "sessions" = some v) :
    (processRow n row st).sessions_per_user =
      if trimmedId row ≠ "" then updSessions st.sessions_per_user (trimmedId row) v
      else st.sessions_per_user := by
  rw [processRow_sessions, hs]

theorem processRow_errors_none (n : Nat) (row : Record) (st : ValidationState)
    (he : columnValue row "errors" = none) :
    (processRow n row st).errors_flag_by_user = st.errors_flag_by_user := by
  rw [processRow_errors, he]

theorem processRow_errors_some (n : Nat) (row : Record) (st : ValidationState) (v : Int)
    (he : columnValue row "errors" = some v) :
    (processRow n row st).errors_flag_by_user =
      if trimmedId row ≠ "" ∧ 0 < v then updErrors st.errors_flag_by_user (trimmedId row)
      else st.errors_flag_by_user := by
  rw [processRow_errors, he]

theorem keys_updSessions (m : List (String × List Int)) (u : String) (v : Int) :
    (updSessions m u v).map Prod.fst =
      if u ∈ m.map Prod.fst then m.map Prod.fst else m.map Prod.fst ++ [u] := by
  induction m with
  | nil => simp [updSessions]
  | cons p rest ih =>
    obtain ⟨k, vs⟩ := p
    by_cases hk : k = u
    · simp [updSessions, hk]
    · have hne : ¬u = k := fun h => hk h.symm
      by_cases hm : u ∈ rest.map Prod.fst <;>
        simp [updSessions, hk, ih, hne, hm]

theorem keys_updErrors (m : List (String × Bool)) (u : String) :
    (updErrors m u).map Prod.fst =
      if u ∈ m.map Prod.fst then m.map Prod.fst else m.map Prod.fst ++ [u] := by
  induction m with
  | nil => simp [updErrors]
  | cons p rest ih =>
    obtain ⟨k, b⟩ := p
    by_cases hk : k = u
    · simp [updErrors, hk]
    · have hne : ¬u = k := fun h => hk h.symm
      by_cases hm : u ∈ rest.map Prod.fst <;>
        simp [updErrors, hk, ih, hne, hm]

theorem processRow_StateInv (n : Nat) (row : Record) (st : ValidationState)
    (h : StateInv st) : StateInv (processRow n row st) := by
  obtain ⟨hseen, hsk, hek, hss, hes⟩ := h
  have hmono : ∀ x ∈ st.seen_user_ids, x ∈ (processRow n row st).seen_user_ids := by
    intro x hx
    rw [processRow_seen]
    exact List.mem_append.mpr (Or.inl hx)
  have htrim : trimmedId row ≠ "" → trimmedId row ∈ (processRow n row st).seen_user_ids := by
    intro ht
    by_cases hsn : trimmedId row ∈ st.seen_user_ids
    · exact hmono _ hsn
    · rw [processRow_seen]
      exact List.mem_append.mpr (Or.inr ((mem_newIds row st.seen_user_ids _).mpr ⟨rfl, ht, hsn⟩))
  refine ⟨?_, ?_, ?_, ?_, ?_⟩
  · rw [processRow_seen, List.nodup_append]
    refine ⟨hseen, nodup_newIds row st.seen_user_ids, ?_⟩
    intro x hx hx2
    exact ((mem_newIds row st.seen_user_ids x).mp hx2).2.2 hx
  · cases hs : columnValue row "sessions" with
    | none => rw [processRow_sessions_none n row st hs]; exact hsk
    | some v =>
      by_cases ht : trimmedId row ≠ ""
      · rw [processRow_sessions_some n row st v hs, if_pos ht, keys_updSessions]
        split_ifs with hmem
        · exact hsk
        · rw [List.nodup_append]
          refine ⟨hsk, by simp, ?_⟩
          intro x hx hx2
          rcases List.mem_singleton.mp hx2 with rfl
          exact hmem hx
      · rw [processRow_sessions_some n row st v hs, if_neg ht]; exact hsk
  · cases he : columnValue row "errors" with
    | none => rw [processRow_errors_none n row st he]; exact hek
    | some v =>
      by_cases ht : trimmedId row ≠ "" ∧ 0 < v
      · rw [processRow_errors_some n row st v he, if_pos ht, keys_updErrors]
        split_ifs with hmem
        · exact hek
        · rw [List.nodup_append]
          refine ⟨hek, by simp, ?_⟩
          intro x hx hx2
          rcases List.mem_singleton.mp hx2 with rfl
          exact hmem hx
      · rw [processRow_errors_some n row st v he, if_neg ht]; exact hek
  · intro x hx
    cases hs : columnValue row "sessions" with
    | none =>
      rw [processRow_sessions_none n row st hs] at hx
      exact hmono x (hss x hx)
    | some v =>
      by_cases ht : trimmedId row ≠ ""
      · rw [processRow_sessions_some n row st v hs, if_pos ht, keys_updSessions] at hx
        split_ifs at hx with hmem
        · exact hmono x (hss x hx)
        · rcases List.mem_append.mp hx with hx | hx
          · exact hmono x (hss x hx)
          · rcases List.mem_singleton.mp hx with rfl
            exact htrim ht
      · rw [processRow_sessions_some n row st v hs, if_neg ht] at hx
        exact hmono x (hss x hx)
  · intro x hx
    cases he : columnValue row "errors" with
    | none =>
      rw [processRow_errors_none n row st he] at hx
      exact hmono x (hes x hx)
    | some v =>
      by_cases ht : trimmedId row ≠ "" ∧ 0 < v
      · rw [processRow_errors_some n row st v he, if_pos ht, keys_updErrors] at hx
        split_ifs at hx with hmem
        · exact hmono x (hes x hx)
        · rcases List.mem_append.mp hx with hx | hx
          · exact hmono x (hes x hx)
          · rcases List.mem_singleton.mp hx with rfl
            exact htrim ht.1
      · rw [processRow_errors_some n row st v he, if_neg ht] at hx
        exact hmono x (hes x hx)

theorem validateLoop_StateInv (rows : List Record) : ∀ (n : Nat) (st : ValidationState),
    StateInv st → StateInv (validateLoop n rows st) := by
  induction rows with
  | nil => intro n st h; exact h
  | cons row rest ih =>
    intro n st h
    exact ih (n + 1) _ (processRow_StateInv n row st h)

theorem validate_rows_StateInv (rows : List Record) : StateInv (validate_rows rows) := by
  refine validateLoop_StateInv rows 2 initialState ?_
  refine ⟨?_, ?_, ?_, ?_, ?_⟩ <;> simp [initialState]

/-! ### Properties of the rounding function -/

theorem ratFloor_eq (q : ℚ) : q.floor = ⌊q⌋ := by
  rw [Rat.floor_def', Rat.floor_def]

theorem pyRoundInt_intCast (m : ℤ) : pyRoundInt (m : ℚ) = m := by
  simp only [pyRoundInt, ratFloor_eq, Int.floor_intCast, sub_self]
  norm_num

theorem le_pyRoundInt (q : ℚ) : ⌊q⌋ ≤ pyRoundInt q := by
  simp only [pyRoundInt, ratFloor_eq]
  split_ifs <;> omega

theorem pyRoundInt_le (q : ℚ) : pyRoundInt q ≤ ⌊q⌋ + 1 := by
  simp only [pyRoundInt, ratFloor_eq]
  split_ifs <;> omega

theorem pyRound2_intCast (m : ℤ) : pyRound2 (m : ℚ) = m := by
  unfold pyRound2
  rw [show ((m : ℚ) * 100) = ((m * 100 : ℤ) : ℚ) by push_cast; ring, pyRoundInt_intCast]
  push_cast
  field_simp

theorem pyRound2_nonneg {q : ℚ} (h : 0 ≤ q) : 0 ≤ pyRound2 q := by
  unfold pyRound2
  have h1 : (0 : ℤ) ≤ ⌊q * 100⌋ := Int.floor_nonneg.mpr (by positivity)
  have h2 : (0 : ℤ) ≤ pyRoundInt (q * 100) := le_trans h1 (le_pyRoundInt _)
  positivity

theorem pyRound2_le_100 {q : ℚ} (h : q ≤ 100) : pyRound2 q ≤ 100 := by
  by_cases hq : q * 100 = 10000
  · rw [pyRound2, hq, show (10000 : ℚ) = ((10000 : ℤ) : ℚ) by norm_num, pyRoundInt_intCast]
    norm_num
  · have hlt : q * 100 < 10000 := lt_of_le_of_ne (by linarith) hq
    have hf : ⌊q * 100⌋ < 10000 := Int.floor_lt.mpr (by exact_mod_cast hlt)
    have h2 : pyRoundInt (q * 100) ≤ 10000 := by
      have := pyRoundInt_le (q * 100)
      omega
    rw [pyRound2, div_le_iff₀ (by norm_num : (0 : ℚ) < 100)]
    calc (pyRoundInt (q * 100) : ℚ) ≤ ((10000 : ℤ) : ℚ) := by exact_mod_cast h2
      _ = 100 * 100 := by norm_num

/-! ### The statistics depend only on the statistics-relevant columns -/

theorem processRow_core (n₁ n₂ : Nat) (r₁ r₂ : Record) (st₁ st₂ : ValidationState)
    (hr : statsRelevantEq r₁ r₂)
    (h1 : st₁.seen_user_ids = st₂.seen_user_ids)
    (h2 : st₁.sessions_per_user = st₂.sessions_per_user)
    (h3 : st₁.errors_flag_by_user = st₂.errors_flag_by_user)
    (h4 : st₁.unique_user_ids = st₂.unique_user_ids) :
    (processRow n₁ r₁ st₁).seen_user_ids = (processRow n₂ r₂ st₂).seen_user_ids ∧
    (processRow n₁ r₁ st₁).sessions_per_user = (processRow n₂ r₂ st₂).sessions_per_user ∧
    (processRow n₁ r₁ st₁).errors_flag_by_user = (processRow n₂ r₂ st₂).errors_flag_by_user ∧
    (processRow n₁ r₁ st₁).unique_user_ids = (processRow n₂ r₂ st₂).unique_user_ids := by
  obtain ⟨hu, hs, he⟩ := hr
  have htrim : trimmedId r₁ = trimmedId r₂ := by unfold trimmedId; rw [hu]
  have hcv : columnValue r₁ "sessions" = columnValue r₂ "sessions" := by
    unfold columnValue; rw [hs]
  have hce : columnValue r₁ "errors" = columnValue r₂ "errors" := by
    unfold columnValue; rw [he]
  refine ⟨?_, ?_, ?_, ?_⟩
  · rw [processRow_seen, processRow_seen, h1]
    unfold newIds
    rw [htrim]
  · rw [processRow_sessions, processRow_sessions, hcv, htrim, h2]
  · rw [processRow_errors, processRow_errors, hce, htrim, h3]
  · rw [processRow_unique, processRow_unique, h4, h1]
    unfold newIds
    rw [htrim]

theorem validateLoop_core {rows₁ rows₂ : List Record}
    (hr : List.Forall₂ statsRelevantEq rows₁ rows₂) :
    ∀ (n₁ n₂ : Nat) (st₁ st₂ : ValidationState),
    st₁.seen_user_ids = st₂.seen_user_ids →
    st₁.sessions_per_user = st₂.sessions_per_user →
    st₁.errors_flag_by_user = st₂.errors_flag_by_user →
    st₁.unique_user_ids = st₂.unique_user_ids →
    (validateLoop n₁ rows₁ st₁).seen_user_ids = (validateLoop n₂ rows₂ st₂).seen_user_ids ∧
    (validateLoop n₁ rows₁ st₁).sessions_per_user = (validateLoop n₂ rows₂ st₂).sessions_per_user ∧
    (validateLoop n₁ rows₁ st₁).errors_flag_by_user =
      (validateLoop n₂ rows₂ st₂).errors_flag_by_user ∧
    (validateLoop n₁ rows₁ st₁).unique_user_ids = (validateLoop n₂ rows₂ st₂).unique_user_ids := by
  induction hr with
  | nil => intro n₁ n₂ st₁ st₂ h1 h2 h3 h4; exact ⟨h1, h2, h3, h4⟩
  | cons hhead _ ih =>
    intro n₁ n₂ st₁ st₂ h1 h2 h3 h4
    obtain ⟨g1, g2, g3, g4⟩ := processRow_core n₁ n₂ _ _ st₁ st₂ hhead h1 h2 h3 h4
    exact ih (n₁ + 1) (n₂ + 1) _ _ g1 g2 g3 g4

/-! ### Characterisations of `validate_rows` itself -/

theorem validate_rows_warnings (rows : List Record) :
    (validate_rows rows).warnings = (warningChunks 2 [] rows).flatten := by
  unfold validate_rows
  rw [validateLoop_warnings]
  simp [initialState]

theorem validate_rows_seen (rows : List Record) :
    (validate_rows rows).seen_user_ids = registryAdditions [] rows := by
  unfold validate_rows
  rw [validateLoop_seen]
  simp [initialState]

theorem validate_rows_unique (rows : List Record) :
    (validate_rows rows).unique_user_ids = registryAdditions [] rows := by
  unfold validate_rows
  rw [validateLoop_unique]
  simp [initialState]

theorem validate_rows_getSessions (rows : List Record) (u : String) (hu : u ≠ "") :
    getSessions (validate_rows rows).sessions_per_user u =
      (rows.map (fun r => if trimmedId r = u then sessionsContribution r else [])).flatten := by
  unfold validate_rows
  rw [validateLoop_getSessions rows u hu]
  simp [initialState, getSessions]

theorem validate_rows_getErrFlag (rows : List Record) (u : String) (hu : u ≠ "") :
    getErrFlag (validate_rows rows).errors_flag_by_user u =
      rows.any (fun r => decide (trimmedId r = u) && errorsContribution r) := by
  unfold validate_rows
  rw [validateLoop_getErrFlag rows u hu]
  simp [initialState, getErrFlag]

theorem pyRound2_zero : pyRound2 0 = 0 := by
  rw [show (0 : ℚ) = ((0 : ℤ) : ℚ) by norm_num, pyRound2_intCast]

/-! ### The claims -/

/-- C1: the statistics aggregator is a total function (it is defined for
every registry and observation maps, with no failure case), its
`average_sessions_per_user` is `0` whenever no user has any valid sessions
value, its `percent_users_with_errors` is `0` whenever the registry is
empty, and `total_users` is always the registry size — no division by zero
occurs in either degenerate case. -/
theorem compute_summary_statistics_degenerate_safe
    (unique_user_ids : List String) (sessions_per_user : List (String × List Int))
    (errors_flag_by_user : List (String × Bool)) :
    ((∀ p ∈ sessions_per_user, p.2 = []) →
      (compute_summary_statistics unique_user_ids sessions_per_user
        errors_flag_by_user).average_sessions_per_user = 0) ∧
    (unique_user_ids = [] →
      (compute_summary_statistics unique_user_ids sessions_per_user
        errors_flag_by_user).percent_users_with_errors = 0) ∧
    (compute_summary_statistics unique_user_ids sessions_per_user
      errors_flag_by_user).total_users = unique_user_ids.length := by
  refine ⟨?_, ?_, rfl⟩
  · intro hall
    have hfil : sessions_per_user.filter (fun p => !p.2.isEmpty) = [] := by
      rw [List.filter_eq_nil_iff]
      intro p hp
      simp [hall p hp]
    unfold compute_summary_statistics
    simp [hfil, pyRound2_zero]
  · intro h
    unfold compute_summary_statistics
    simp [h, pyRound2_zero]

theorem compute_summary_statistics_degenerate_safe_witness :
    (compute_summary_statistics [] [("u", [])] [("u", true)]).average_sessions_per_user = 0 ∧
    (compute_summary_statistics [] [("u", [])] [("u", true)]).percent_users_with_errors = 0 :=
  ⟨(compute_summary_statistics_degenerate_safe [] [("u", [])] [("u", true)]).1
      (by intro p hp; rcases List.mem_singleton.mp hp with rfl; rfl),
   (compute_summary_statistics_degenerate_safe [] [("u", [])] [("u", true)]).2.1 rfl⟩

/-- C2: the row parser fails in exactly three cases — no header row at all
(`fieldnames is None`), a header missing required columns (naming every
missing one in the canonical `EXPECTED_COLUMNS` order), or no data row
after the header — and otherwise returns one `Record` per (non-blank,
since `csv.DictReader` skips blank rows) data row, in input order. -/
theorem parse_csv_rows_characterization (csvRows : List (List String)) :
    (csvRows = [] → parse_csv_rows csvRows = .error missingHeaderMsg) ∧
    (∀ fieldnames dataRows, csvRows = fieldnames :: dataRows →
      (missingColumnsOf fieldnames).Sublist EXPECTED_COLUMNS ∧
      (∀ c, c ∈ missingColumnsOf fieldnames ↔ (c ∈ EXPECTED_COLUMNS ∧ c ∉ fieldnames)) ∧
      (missingColumnsOf fieldnames ≠ [] →
        parse_csv_rows csvRows = .error (missingColumnsMsg (missingColumnsOf fieldnames))) ∧
      (missingColumnsOf fieldnames = [] → dataRows.filter (fun r => !r.isEmpty) = [] →
        parse_csv_rows csvRows = .error emptyDatasetMsg) ∧
      (missingColumnsOf fieldnames = [] → dataRows.filter (fun r => !r.isEmpty) ≠ [] →
        parse_csv_rows csvRows =
          .ok ((dataRows.filter (fun r => !r.isEmpty)).map (mkRecord fieldnames)))) := by
  constructor
  · rintro rfl
    rfl
  · rintro f d rfl
    refine ⟨List.filter_sublist _, ?_, ?_, ?_, ?_⟩
    · intro c
      simp [missingColumnsOf, List.mem_filter]
    · intro hm
      unfold parse_csv_rows
      simp [hm, List.isEmpty_iff]
    · intro hm he
      unfold parse_csv_rows
      simp [hm, he]
    · intro hm he
      unfold parse_csv_rows
      simp [hm, he]

theorem parse_csv_rows_characterization_witness :
    parse_csv_rows [] = .error missingHeaderMsg ∧
    parse_csv_rows [["user_id", "clicks"]] =
      .error (missingColumnsMsg ["sessions", "errors"]) ∧
    parse_csv_rows [["user_id", "sessions", "clicks", "errors"], []] = .error emptyDatasetMsg ∧
    parse_csv_rows [["user_id", "sessions", "clicks", "errors"], ["u1", "1", "2", "3"]] =
      .ok [[("user_id", "u1"), ("sessions", "1"), ("clicks", "2"), ("errors", "3")]] := by
  refine ⟨(parse_csv_rows_characterization []).1 rfl, ?_, ?_, ?_⟩
  · have h := ((parse_csv_rows_characterization [["user_id", "clicks"]]).2
      ["user_id", "clicks"] [] rfl).2.2.1 (by decide)
    rw [h]
    congr 1
  · exact (((parse_csv_rows_characterization
      [["user_id", "sessions", "clicks", "errors"], []]).2
      ["user_id", "sessions", "clicks", "errors"] [[]] rfl).2.2.2.1 (by decide) (by decide))
  · have h := (((parse_csv_rows_characterization
      [["user_id", "sessions", "clicks", "errors"], ["u1", "1", "2", "3"]]).2
      ["user_id", "sessions", "clicks", "errors"] [["u1", "1", "2", "3"]] rfl).2.2.2.2
      (by decide) (by decide))
    rw [h]
    congr 1

/-- C4: `total_users` is exactly the number of distinct non-empty trimmed
user identifiers in the input — independent of every numeric field, and
never counting identifiers that are empty after trimming. -/
theorem total_users_counts_distinct_ids (rows : List Record) :
    (compute_summary_statistics (validate_rows rows).unique_user_ids
        (validate_rows rows).sessions_per_user
        (validate_rows rows).errors_flag_by_user).total_users =
      ((rows.map trimmedId).filter (fun s => s ≠ "")).dedup.length := by
  have h1 : (compute_summary_statistics (validate_rows rows).unique_user_ids
      (validate_rows rows).sessions_per_user
      (validate_rows rows).errors_flag_by_user).total_users =
      (validate_rows rows).unique_user_ids.length := rfl
  rw [h1, validate_rows_unique]
  have hnodup := registryAdditions_nodup rows []
  have hmem : ∀ u, u ∈ registryAdditions [] rows ↔
      u ∈ ((rows.map trimmedId).filter (fun s => s ≠ "")).dedup := by
    intro u
    rw [mem_registryAdditions, List.mem_dedup, List.mem_filter]
    constructor
    · rintro ⟨h1, _, h3⟩
      exact ⟨h3, by simpa using h1⟩
    · rintro ⟨h3, h1⟩
      exact ⟨by simpa using h1, by simp, h3⟩
  have e1 : (registryAdditions [] rows).toFinset =
      ((rows.map trimmedId).filter (fun s => s ≠ "")).dedup.toFinset := by
    ext u
    simp only [List.mem_toFinset]
    exact hmem u
  calc (registryAdditions [] rows).length
      = (registryAdditions [] rows).toFinset.card :=
        (List.toFinset_card_of_nodup hnodup).symm
    _ = ((rows.map trimmedId).filter (fun s => s ≠ "")).dedup.toFinset.card := by rw [e1]
    _ = ((rows.map trimmedId).filter (fun s => s ≠ "")).dedup.length :=
        List.toFinset_card_of_nodup (List.nodup_dedup _)

/-- C9: on the concrete two-record input (u1: sessions 10, errors 0;
u2: sessions 20, errors 5) the pipeline computes total_users = 2,
average_sessions_per_user = 15 and percent_users_with_errors = 50. -/
theorem two_record_example_statistics :
    compute_summary_statistics
      (validate_rows
        [[("user_id", "u1"), ("sessions", "10"), ("clicks", "0"), ("errors", "0")],
         [("user_id", "u2"), ("sessions", "20"), ("clicks", "0"), ("errors", "5")]]).unique_user_ids
      (validate_rows
        [[("user_id", "u1"), ("sessions", "10"), ("clicks", "0"), ("errors", "0")],
         [("user_id", "u2"), ("sessions", "20"), ("clicks", "0"), ("errors", "5")]]).sessions_per_user
      (validate_rows
        [[("user_id", "u1"), ("sessions", "10"), ("clicks", "0"), ("errors", "0")],
         [("user_id", "u2"), ("sessions", "20"), ("clicks", "0"), ("errors", "5")]]).errors_flag_by_user =
      { total_users := 2, average_sessions_per_user := 15, percent_users_with_errors := 50 } := by
  have hst : validate_rows
      [[("user_id", "u1"), ("sessions", "10"), ("clicks", "0"), ("errors", "0")],
       [("user_id", "u2"), ("sessions", "20"), ("clicks", "0"), ("errors", "5")]] =
      ⟨[], ["u1", "u2"], [("u1", [10]), ("u2", [20])], [("u2", true)], ["u1", "u2"]⟩ := by
    decide
  rw [hst]
  unfold compute_summary_statistics
  norm_num
  constructor
  · rw [show (15 : ℚ) = ((15 : ℤ) : ℚ) by norm_num, pyRound2_intCast]
  · rw [show (50 : ℚ) = ((50 : ℤ) : ℚ) by norm_num, pyRound2_intCast]

/-- C10 (implicit invariant): every key of the sessions map and every
flagged key of the errors map is a registered identifier, and consequently
the computed `percent_users_with_errors` always lies between 0 and 100. -/
theorem validate_rows_registry_invariant_and_percent_bounds (rows : List Record) :
    (∀ p ∈ (validate_rows rows).sessions_per_user,
      p.1 ∈ (validate_rows rows).unique_user_ids) ∧
    (∀ p ∈ (validate_rows rows).errors_flag_by_user, p.2 = true →
      p.1 ∈ (validate_rows rows).unique_user_ids) ∧
    0 ≤ (compute_summary_statistics (validate_rows rows).unique_user_ids
        (validate_rows rows).sessions_per_user
        (validate_rows rows).errors_flag_by_user).percent_users_with_errors ∧
    (compute_summary_statistics (validate_rows rows).unique_user_ids
        (validate_rows rows).sessions_per_user
        (validate_rows rows).errors_flag_by_user).percent_users_with_errors ≤ 100 := by
  obtain ⟨hseen, hsk, hek, hss, hes⟩ := validate_rows_StateInv rows
  have hsu : (validate_rows rows).seen_user_ids = (validate_rows rows).unique_user_ids := by
    rw [validate_rows_seen, validate_rows_unique]
  have hmem_uniq : ∀ p ∈ (validate_rows rows).errors_flag_by_user,
      p.1 ∈ (validate_rows rows).unique_user_ids := by
    intro p hp
    rw [← hsu]
    exact hes p.1 (List.mem_map_of_mem Prod.fst hp)
  refine ⟨?_, ?_, ?_⟩
  · intro p hp
    rw [← hsu]
    exact hss p.1 (List.mem_map_of_mem Prod.fst hp)
  · intro p hp _
    exact hmem_uniq p hp
  · have hpe : (compute_summary_statistics (validate_rows rows).unique_user_ids
        (validate_rows rows).sessions_per_user
        (validate_rows rows).errors_flag_by_user).percent_users_with_errors =
        pyRound2 (if (validate_rows rows).unique_user_ids.length ≠ 0 then
          (((((validate_rows rows).errors_flag_by_user.filter (fun p => p.2)).map
              (fun p => p.1)).length : ℚ) /
            ((validate_rows rows).unique_user_ids.length : ℚ)) * 100
        else 0) := rfl
    rw [hpe]
    by_cases hn : (validate_rows rows).unique_user_ids.length = 0
    · simp [hn, pyRound2_zero]
    · have hkn : (((validate_rows rows).errors_flag_by_user.filter (fun p => p.2)).map
          (fun p => p.1)).length ≤ (validate_rows rows).unique_user_ids.length := by
        set l1 := (((validate_rows rows).errors_flag_by_user.filter (fun p => p.2)).map
          (fun p => p.1)) with hl1
        have hnd : l1.Nodup := by
          refine List.Nodup.sublist ?_ hek
          exact List.Sublist.map Prod.fst (List.filter_sublist _)
        have hsub : l1 ⊆ (validate_rows rows).unique_user_ids := by
          intro x hx
          rw [hl1] at hx
          rcases List.mem_map.mp hx with ⟨p, hp, rfl⟩
          exact hmem_uniq p (List.mem_of_mem_filter hp)
        calc l1.length = l1.toFinset.card := (List.toFinset_card_of_nodup hnd).symm
          _ ≤ (validate_rows rows).unique_user_ids.toFinset.card := by
              refine Finset.card_le_card ?_
              intro x hx
              rw [List.mem_toFinset] at hx ⊢
              exact hsub hx
          _ ≤ (validate_rows rows).unique_user_ids.length := List.toFinset_card_le _
      rw [if_pos hn]
      have hnpos : (0 : ℚ) < ((validate_rows rows).unique_user_ids.length : ℚ) := by
        have : 0 < (validate_rows rows).unique_user_ids.length := Nat.pos_of_ne_zero hn
        exact_mod_cast this
      have h0 : (0 : ℚ) ≤ (((((validate_rows rows).errors_flag_by_user.filter (fun p => p.2)).map
          (fun p => p.1)).length : ℚ) / ((validate_rows rows).unique_user_ids.length : ℚ)) * 100 := by
        positivity
      have h100 : (((((validate_rows rows).errors_flag_by_user.filter (fun p => p.2)).map
          (fun p => p.1)).length : ℚ) / ((validate_rows rows).unique_user_ids.length : ℚ)) * 100
          ≤ 100 := by
        have hdiv : (((((validate_rows rows).errors_flag_by_user.filter (fun p => p.2)).map
            (fun p => p.1)).length : ℚ) / ((validate_rows rows).unique_user_ids.length : ℚ)) ≤ 1 := by
          rw [div_le_one hnpos]
          exact_mod_cast hkn
        nlinarith
      exact ⟨pyRound2_nonneg h0, pyRound2_le_100 h100⟩

theorem validate_rows_registry_invariant_and_percent_bounds_witness :
    "u2" ∈ (validate_rows [[("user_id", "u2"), ("sessions", "x"), ("errors", "5")]]).unique_user_ids ∧
    0 ≤ (compute_summary_statistics
        (validate_rows [[("user_id", "u2"), ("sessions", "x"), ("errors", "5")]]).unique_user_ids
        (validate_rows [[("user_id", "u2"), ("sessions", "x"), ("errors", "5")]]).sessions_per_user
        (validate_rows [[("user_id", "u2"), ("sessions", "x"), ("errors", "5")]]).errors_flag_by_user).percent_users_with_errors ∧
    (compute_summary_statistics
        (validate_rows [[("user_id", "u2"), ("sessions", "x"), ("errors", "5")]]).unique_user_ids
        (validate_rows [[("user_id", "u2"), ("sessions", "x"), ("errors", "5")]]).sessions_per_user
        (validate_rows [[("user_id", "u2"), ("sessions", "x"), ("errors", "5")]]).errors_flag_by_user).percent_users_with_errors ≤ 100 :=
  ⟨(validate_rows_registry_invariant_and_percent_bounds
      [[("user_id", "u2"), ("sessions", "x"), ("errors", "5")]]).2.1
      ("u2", true) (by decide) rfl,
   (validate_rows_registry_invariant_and_percent_bounds
      [[("user_id", "u2"), ("sessions", "x"), ("errors", "5")]]).2.2.1,
   (validate_rows_registry_invariant_and_percent_bounds
      [[("user_id", "u2"), ("sessions", "x"), ("errors", "5")]]).2.2.2⟩

/-! ### C7: the optional summary never interferes with the analysis -/

theorem generate_openai_summary_exclusive (o : OpenAIOutcome) :
    (generate_openai_summary o).1.isSome = (generate_openai_summary o).2.isNone := by
  cases o with
  | noApiKey => rfl
  | noClientLib => rfl
  | apiCallFailed msg => rfl
  | noChoices => rfl
  | choiceMessage content =>
    cases content with
    | none => rfl
    | some c =>
      by_cases hc : c = "" <;> simp [generate_openai_summary, hc]

/-- C7: a successful analysis always populates exactly one of
(`ai_summary`, `ai_notice`) — whatever the outcome of the OpenAI
collaborator — and whether the analysis succeeds at all is independent of
that outcome (the generator can never make the analysis fail). -/
theorem analyze_csv_content_summary_notice_exclusive
    (csvRows : List (List String)) (o₁ o₂ : OpenAIOutcome) :
    ((analyze_csv_content csvRows o₁).isOk = (analyze_csv_content csvRows o₂).isOk) ∧
    (∀ r, analyze_csv_content csvRows o₁ = .ok r →
      r.ai_summary.isSome = r.ai_notice.isNone) := by
  constructor
  · unfold analyze_csv_content
    cases hp : parse_csv_rows csvRows <;> rfl
  · intro r hr
    unfold analyze_csv_content at hr
    cases hp : parse_csv_rows csvRows with
    | error e => rw [hp] at hr; cases hr
    | ok rows =>
      rw [hp] at hr
      have := Except.ok.inj hr
      subst this
      exact generate_openai_summary_exclusive o₁

theorem analyze_csv_content_summary_notice_exclusive_witness :
    ((analyze_csv_content [["user_id", "sessions", "clicks", "errors"], ["u1", "1", "2", "0"]]
        OpenAIOutcome.noApiKey).isOk =
      (analyze_csv_content [["user_id", "sessions", "clicks", "errors"], ["u1", "1", "2", "0"]]
        (OpenAIOutcome.choiceMessage (some "all good"))).isOk) ∧
    ((analyze_csv_content [["user_id", "sessions", "clicks", "errors"], ["u1", "1", "2", "0"]]
        OpenAIOutcome.noApiKey).map
        (fun r => r.ai_summary.isSome = r.ai_notice.isNone) = .ok True) := by
  constructor
  · exact (analyze_csv_content_summary_notice_exclusive
      [["user_id", "sessions", "clicks", "errors"], ["u1", "1", "2", "0"]]
      OpenAIOutcome.noApiKey (OpenAIOutcome.choiceMessage (some "all good"))).1
  · cases hr : analyze_csv_content [["user_id", "sessions", "clicks", "errors"], ["u1", "1", "2", "0"]]
      OpenAIOutcome.noApiKey with
    | error e =>
      exfalso
      revert hr
      unfold analyze_csv_content
      have hp : parse_csv_rows [["user_id", "sessions", "clicks", "errors"], ["u1", "1", "2", "0"]] =
          .ok [[("user_id", "u1"), ("sessions", "1"), ("clicks", "2"), ("errors", "0")]] := by
        rfl
      rw [hp]
      intro hr
      cases hr
    | ok r =>
      have hx := (analyze_csv_content_summary_notice_exclusive
        [["user_id", "sessions", "clicks", "errors"], ["u1", "1", "2", "0"]]
        OpenAIOutcome.noApiKey (OpenAIOutcome.choiceMessage (some "all good"))).2 r hr
      simp [Except.map, hx]

/-- C5 (non-interference): two inputs that agree on every column except
`clicks` produce identical summary statistics — the clicks column can only
influence the warnings, never `total_users`, `average_sessions_per_user`
or `percent_users_with_errors`. -/
theorem clicks_cannot_influence_statistics {rows₁ rows₂ : List Record}
    (h : List.Forall₂ statsRelevantEq rows₁ rows₂) :
    compute_summary_statistics (validate_rows rows₁).unique_user_ids
        (validate_rows rows₁).sessions_per_user (validate_rows rows₁).errors_flag_by_user =
      compute_summary_statistics (validate_rows rows₂).unique_user_ids
        (validate_rows rows₂).sessions_per_user (validate_rows rows₂).errors_flag_by_user := by
  obtain ⟨g1, g2, g3, g4⟩ :=
    validateLoop_core h 2 2 initialState initialState rfl rfl rfl rfl
  unfold validate_rows
  rw [g2, g3, g4]

theorem clicks_cannot_influence_statistics_witness :
    compute_summary_statistics
        (validate_rows [[("user_id", "u1"), ("sessions", "3"), ("clicks", "7"), ("errors", "1")]]).unique_user_ids
        (validate_rows [[("user_id", "u1"), ("sessions", "3"), ("clicks", "7"), ("errors", "1")]]).sessions_per_user
        (validate_rows [[("user_id", "u1"), ("sessions", "3"), ("clicks", "7"), ("errors", "1")]]).errors_flag_by_user =
      compute_summary_statistics
        (validate_rows [[("user_id", "u1"), ("sessions", "3"), ("clicks", "oops"), ("errors", "1")]]).unique_user_ids
        (validate_rows [[("user_id", "u1"), ("sessions", "3"), ("clicks", "oops"), ("errors", "1")]]).sessions_per_user
        (validate_rows [[("user_id", "u1"), ("sessions", "3"), ("clicks", "oops"), ("errors", "1")]]).errors_flag_by_user :=
  clicks_cannot_influence_statistics
    (List.Forall₂.cons ⟨by decide, by decide, by decide⟩ List.Forall₂.nil)

/-- C8 (ordering): the warnings list is exactly the concatenation, in
input order, of one warning chunk per record; each record chunk is the
user-identifier warnings followed by the numeric-field warnings in the
fixed order sessions, clicks, errors. -/
theorem warnings_preserve_input_order (rows : List Record) :
    (validate_rows rows).warnings = (warningChunks 2 [] rows).flatten ∧
    (warningChunks 2 [] rows).length = rows.length ∧
    (∀ i (h : i < rows.length),
      (warningChunks 2 [] rows).get ⟨i, by rw [warningChunks_length]; exact h⟩ =
        userWarnings (2 + i) (rows.get ⟨i, h⟩) (registryAdditions [] (rows.take i)) ++
          numericWarnings (2 + i) (rows.get ⟨i, h⟩) "sessions" ++
          numericWarnings (2 + i) (rows.get ⟨i, h⟩) "clicks" ++
          numericWarnings (2 + i) (rows.get ⟨i, h⟩) "errors") := by
  refine ⟨validate_rows_warnings rows, warningChunks_length rows 2 [], ?_⟩
  intro i h
  rw [warningChunks_get rows 2 [] i h]
  unfold recordWarnings
  rw [List.nil_append]

theorem warnings_preserve_input_order_witness :
    (validate_rows [[("user_id", ""), ("sessions", "abc")]]).warnings =
      (warningChunks 2 [] [[("user_id", ""), ("sessions", "abc")]]).flatten ∧
    (warningChunks 2 [] [[("user_id", ""), ("sessions", "abc")]]).get
        ⟨0, by rw [warningChunks_length]; exact Nat.zero_lt_one⟩ =
      userWarnings 2 [("user_id", ""), ("sessions", "abc")] (registryAdditions [] []) ++
        numericWarnings 2 [("user_id", ""), ("sessions", "abc")] "sessions" ++
        numericWarnings 2 [("user_id", ""), ("sessions", "abc")] "clicks" ++
        numericWarnings 2 [("user_id", ""), ("sessions", "abc")] "errors" :=
  ⟨(warnings_preserve_input_order [[("user_id", ""), ("sessions", "abc")]]).1,
   (warnings_preserve_input_order [[("user_id", ""), ("sessions", "abc")]]).2.2
     0 Nat.zero_lt_one⟩

/-- C6: a numeric field that parses to a negative integer produces the
negative-value warning for that field (and nothing else for that field —
in particular not the invalid-integer warning, a different string), and
the value is excluded from aggregation: such a record contributes no
sessions observation and never sets an error flag, as the aggregation
characterisations show. -/
theorem negative_value_warned_and_excluded (rows : List Record) (i : Nat)
    (h : i < rows.length) (c : String) (hc : c ∈ NUMERIC_COLUMNS) (v : Int)
    (hparse : parsePyInt (pyStrip (dictGet rows[i] c)) = some v) (hneg : v < 0) :
    numericWarnings (i + 2) rows[i] c = [rowWarning (i + 2) (negBody c)] ∧
    (∀ raw, rowWarning (i + 2) (negBody c) ≠ rowWarning (i + 2) (invalidBody raw c)) ∧
    rowWarning (i + 2) (negBody c) ∈ (validate_rows rows).warnings ∧
    columnValue rows[i] c = none ∧
    (c = "sessions" → sessionsContribution rows[i] = []) ∧
    (c = "errors" → errorsContribution rows[i] = false) ∧
    (∀ u, u ≠ "" →
      getSessions (validate_rows rows).sessions_per_user u =
        (rows.map (fun r => if trimmedId r = u then sessionsContribution r else [])).flatten) ∧
    (∀ u, u ≠ "" →
      getErrFlag (validate_rows rows).errors_flag_by_user u =
        rows.any (fun r => decide (trimmedId r = u) && errorsContribution r)) := by
  have hraw : pyStrip (dictGet rows[i] c) ≠ "" := by
    intro contra
    rw [contra] at hparse
    have hnone : parsePyInt "" = none := by decide
    rw [hnone] at hparse
    cases hparse
  have hnw : numericWarnings (i + 2) rows[i] c = [rowWarning (i + 2) (negBody c)] := by
    unfold numericWarnings
    simp [hraw, hparse, hneg]
  have hcv : columnValue rows[i] c = none := by
    unfold columnValue
    simp [hraw, hparse, hneg]
  refine ⟨hnw, ?_, ?_, hcv, ?_, ?_, ?_, ?_⟩
  · intro raw hbad
    exact negBody_ne_invalidBody c raw c (rowWarning_body_inj hbad)
  · rw [validate_rows_warnings]
    refine List.mem_flatten.mpr
      ⟨(warningChunks 2 [] rows).get ⟨i, by rw [warningChunks_length]; exact h⟩,
       List.get_mem _ _ _, ?_⟩
    rw [warningChunks_get rows 2 [] i h]
    unfold recordWarnings
    rw [Nat.add_comm 2 i]
    have hcc : c = "sessions" ∨ c = "clicks" ∨ c = "errors" := by
      simpa [NUMERIC_COLUMNS] using hc
    rcases hcc with rfl | rfl | rfl <;> simp [hnw]
  · intro hcs
    subst hcs
    unfold sessionsContribution
    rw [hcv]
  · intro hce
    subst hce
    unfold errorsContribution
    rw [hcv]
  · intro u hu
    exact validate_rows_getSessions rows u hu
  · intro u hu
    exact validate_rows_getErrFlag rows u hu

theorem negative_value_warned_and_excluded_witness :
    numericWarnings 2 [("user_id", "u1"), ("sessions", "-3"), ("clicks", "0"), ("errors", "0")]
        "sessions" = [rowWarning 2 (negBody "sessions")] ∧
    rowWarning 2 (negBody "sessions") ∈
      (validate_rows
        [[("user_id", "u1"), ("sessions", "-3"), ("clicks", "0"), ("errors", "0")]]).warnings ∧
    sessionsContribution
      [("user_id", "u1"), ("sessions", "-3"), ("clicks", "0"), ("errors", "0")] = [] :=
  ⟨(negative_value_warned_and_excluded
      [[("user_id", "u1"), ("sessions", "-3"), ("clicks", "0"), ("errors", "0")]]
      0 Nat.zero_lt_one "sessions" (by decide) (-3) (by decide) (by decide)).1,
   (negative_value_warned_and_excluded
      [[("user_id", "u1"), ("sessions", "-3"), ("clicks", "0"), ("errors", "0")]]
      0 Nat.zero_lt_one "sessions" (by decide) (-3) (by decide) (by decide)).2.2.1,
   (negative_value_warned_and_excluded
      [[("user_id", "u1"), ("sessions", "-3"), ("clicks", "0"), ("errors", "0")]]
      0 Nat.zero_lt_one "sessions" (by decide) (-3) (by decide) (by decide)).2.2.2.2.1 rfl⟩

/-! ### Helper lemmas for the duplicate-identifier claim -/

theorem registryAdditions_append (xs ys : List Record) : ∀ seen,
    registryAdditions seen (xs ++ ys) =
      registryAdditions seen xs ++
        registryAdditions (seen ++ registryAdditions seen xs) ys := by
  induction xs with
  | nil => intro seen; simp [registryAdditions]
  | cons row rest ih =>
    intro seen
    show newIds row seen ++ registryAdditions (seen ++ newIds row seen) (rest ++ ys) = _
    rw [ih]
    simp [registryAdditions, List.append_assoc]

theorem count_singleton_zero {y x : String} (h : y ≠ x) : [y].count x = 0 := by
  simp [List.count_cons, beq_iff_eq, h]

theorem count_dup_numericWarnings (n : Nat) (row : Record) (col u : String) :
    (numericWarnings n row col).count (rowWarning n (dupBody u)) = 0 := by
  have hmd : rowWarning n (missingBody col) ≠ rowWarning n (dupBody u) :=
    fun hb => dupBody_ne_missingBody u col (rowWarning_body_inj hb).symm
  have hid : ∀ raw, rowWarning n (invalidBody raw col) ≠ rowWarning n (dupBody u) :=
    fun raw hb => dupBody_ne_invalidBody u raw col (rowWarning_body_inj hb).symm
  have hnd : rowWarning n (negBody col) ≠ rowWarning n (dupBody u) :=
    fun hb => dupBody_ne_negBody u col (rowWarning_body_inj hb).symm
  unfold numericWarnings
  by_cases h1 : pyStrip (dictGet row col) = ""
  · simp only [h1, if_pos rfl]
    exact count_singleton_zero hmd
  · simp only [h1, if_neg h1]
    cases h2 : parsePyInt (pyStrip (dictGet row col)) with
    | none => exact count_singleton_zero (hid _)
    | some v =>
      by_cases h3 : v < 0
      · simp only [h3, if_pos h3]
        exact count_singleton_zero hnd
      · simp [h3]

/-- C3: a repeated non-empty trimmed identifier is registered exactly once,
at its first-seen position (the registry splits as the identifiers first
seen before it, then `u`, then later additions among which `u` never
reappears); each occurrence after the first emits exactly one duplicate
warning in that record's chunk of the warnings list, and no other chunk
element equals it; and the observations of every record bearing `u` are
merged into the single map entry of `u`. -/
theorem duplicate_ids_flagged_once_and_merged (rows : List Record) (u : String)
    (hu : u ≠ "") :
    (u ∈ rows.map trimmedId → (validate_rows rows).unique_user_ids.count u = 1) ∧
    (∀ k, (hk : k < rows.length) → trimmedId rows[k] = u →
      u ∉ (rows.take k).map trimmedId →
      u ∉ registryAdditions [] (rows.take k) ∧
      (validate_rows rows).unique_user_ids =
        registryAdditions [] (rows.take k) ++ u ::
          registryAdditions (registryAdditions [] (rows.take k) ++ [u])
            (rows.drop (k + 1))) ∧
    (validate_rows rows).warnings = (warningChunks 2 [] rows).flatten ∧
    (∀ k, (hk : k < rows.length) → trimmedId rows[k] = u →
      ((warningChunks 2 [] rows).get ⟨k, by rw [warningChunks_length]; exact hk⟩).count
          (rowWarning (2 + k) (dupBody u)) =
        (if u ∈ (rows.take k).map trimmedId then 1 else 0)) ∧
    (∀ k, (hk : k < rows.length) → trimmedId rows[k] ≠ u →
      ((warningChunks 2 [] rows).get ⟨k, by rw [warningChunks_length]; exact hk⟩).count
          (rowWarning (2 + k) (dupBody u)) = 0) ∧
    ((validate_rows rows).sessions_per_user.map Prod.fst).count u ≤ 1 ∧
    ((validate_rows rows).errors_flag_by_user.map Prod.fst).count u ≤ 1 ∧
    getSessions (validate_rows rows).sessions_per_user u =
      (rows.map (fun r => if trimmedId r = u then sessionsContribution r else [])).flatten ∧
    getErrFlag (validate_rows rows).errors_flag_by_user u =
      rows.any (fun r => decide (trimmedId r = u) && errorsContribution r) := by
  obtain ⟨hseen, hsk, hek, hss, hes⟩ := validate_rows_StateInv rows
  refine ⟨?_, ?_, validate_rows_warnings rows, ?_, ?_, ?_, ?_, ?_, ?_⟩
  · intro hmem
    rw [validate_rows_unique]
    exact List.count_eq_one_of_mem (registryAdditions_nodup rows [])
      ((mem_registryAdditions rows u []).mpr ⟨hu, by simp, hmem⟩)
  · intro k hk hval hfirst
    have hnA : u ∉ registryAdditions [] (rows.take k) := by
      intro hmem
      exact hfirst ((mem_registryAdditions _ u _).mp hmem).2.2
    refine ⟨hnA, ?_⟩
    rw [validate_rows_unique]
    have hsplit : rows = rows.take k ++ rows[k] :: rows.drop (k + 1) := by
      conv_lhs => rw [← List.take_append_drop k rows]
      congr 1
      exact List.drop_eq_getElem_cons hk
    conv_lhs => rw [hsplit]
    rw [registryAdditions_append]
    have hnew : newIds rows[k] (registryAdditions [] (rows.take k)) = [u] := by
      simp only [newIds, hval]
      rw [if_neg hu, if_neg hnA]
    simp only [registryAdditions, List.nil_append]
    rw [hnew]
    simp [List.append_assoc]
  · intro k hk hval
    rw [warningChunks_get rows 2 [] k hk]
    unfold recordWarnings
    rw [List.nil_append, List.count_append, List.count_append, List.count_append,
      count_dup_numericWarnings, count_dup_numericWarnings, count_dup_numericWarnings]
    simp only [Nat.add_zero]
    simp only [userWarnings, List.get_eq_getElem, hval]
    rw [if_neg hu]
    by_cases hmem : u ∈ (rows.take k).map trimmedId
    · have hA : u ∈ registryAdditions [] (rows.take k) :=
        (mem_registryAdditions _ u _).mpr ⟨hu, by simp, hmem⟩
      rw [if_pos hA, if_pos hmem]
      simp [List.count_cons]
    · have hA : u ∉ registryAdditions [] (rows.take k) := by
        intro hmem2
        exact hmem ((mem_registryAdditions _ u _).mp hmem2).2.2
      rw [if_neg hA, if_neg hmem]
      rfl
  · intro k hk hval
    rw [warningChunks_get rows 2 [] k hk]
    unfold recordWarnings
    rw [List.nil_append, List.count_append, List.count_append, List.count_append,
      count_dup_numericWarnings, count_dup_numericWarnings, count_dup_numericWarnings]
    simp only [Nat.add_zero]
    simp only [userWarnings, List.get_eq_getElem]
    by_cases h1 : trimmedId rows[k] = ""
    · rw [if_pos h1]
      exact count_singleton_zero
        (fun hb => dupBody_ne_missingBody u "user_id" (rowWarning_body_inj hb).symm)
    · rw [if_neg h1]
      by_cases h2 : trimmedId rows[k] ∈ registryAdditions [] (rows.take k)
      · rw [if_pos h2]
        refine count_singleton_zero (fun hb => hval ?_)
        exact dupBody_inj (rowWarning_body_inj hb)
      · rw [if_neg h2]
        rfl
  · exact (List.nodup_iff_count_le_one.mp hsk) u
  · exact (List.nodup_iff_count_le_one.mp hek) u
  · exact validate_rows_getSessions rows u hu
  · exact validate_rows_getErrFlag rows u hu

theorem duplicate_ids_flagged_once_and_merged_witness :
    (validate_rows [[("user_id", "u1"), ("sessions", "10")],
        [("user_id", "u1"), ("sessions", "20")]]).unique_user_ids.count "u1" = 1 ∧
    ((warningChunks 2 [] [[("user_id", "u1"), ("sessions", "10")],
        [("user_id", "u1"), ("sessions", "20")]]).get
        ⟨1, by rw [warningChunks_length]; decide⟩).count
      (rowWarning (2 + 1) (dupBody "u1")) = 1 ∧
    getSessions (validate_rows [[("user_id", "u1"), ("sessions", "10")],
        [("user_id", "u1"), ("sessions", "20")]]).sessions_per_user "u1" =
      ([[("user_id", "u1"), ("sessions", "10")], [("user_id", "u1"), ("sessions", "20")]].map
        (fun r => if trimmedId r = "u1" then sessionsContribution r else [])).flatten :=
  ⟨(duplicate_ids_flagged_once_and_merged
      [[("user_id", "u1"), ("sessions", "10")], [("user_id", "u1"), ("sessions", "20")]]
      "u1" (by decide)).1 (by decide),
   (duplicate_ids_flagged_once_and_merged
      [[("user_id", "u1"), ("sessions", "10")], [("user_id", "u1"), ("sessions", "20")]]
      "u1" (by decide)).2.2.2.1 1 (by decide) (by decide),
   (duplicate_ids_flagged_once_and_merged
      [[("user_id", "u1"), ("sessions", "10")], [("user_id", "u1"), ("sessions", "20")]]
      "u1" (by decide)).2.2.2.2.2.2.2.1⟩
